import Mathlib

/-!
Shallow embedding of `src/wiretray.py` (WireTray, a WireGuard tray utility).

Strings are modelled as `List Char` (`Str`).  Python's `str.replace`,
`str.endswith` and `list.sort` are modelled by `pyReplace`, `pyEndsWith`
and `List.insertionSort strLeP` (ascending lexicographic order by code
point).  The filesystem is a predicate `Str → Bool` on paths; the
directory state seen by `scan_configs` is a `DirState`; the Qt list
widget rows are `ListItem`s (text plus the hidden `UserRole` data);
subprocess results are `SubprocResult`.
-/

namespace Wiretray

abbrev Str := List Char

/-- The literal `".conf"` used by `scan_configs` (wiretray.py:95-96). -/
def confSuffix : Str := ".conf".toList

/-- The literal `"  [Active]"` used by `update_status` for tray actions
(wiretray.py:173,178). -/
def activeTag : Str := "  [Active]".toList

/-- The literal `" (Active)"` appended to list-widget rows
(wiretray.py:157). -/
def activeMark : Str := " (Active)".toList

/-- Python `f.endswith(s)` (wiretray.py:95). -/
def pyEndsWith (t s : Str) : Bool := s.isSuffixOf t

/-- Auxiliary scanner for `pyReplace`: `skip` counts characters of an
already-matched occurrence of `old` still to be deleted. -/
def pyReplaceAux (old new : Str) : Nat → Str → Str
  | _, [] => []
  | Nat.succ k, _ :: rest => pyReplaceAux old new k rest
  | 0, c :: rest =>
    if old.isPrefixOf (c :: rest) ∧ old ≠ [] then
      new ++ pyReplaceAux old new (old.length - 1) rest
    else
      c :: pyReplaceAux old new 0 rest

/-- Python `t.replace(old, new)` for a non-empty `old`: replace each
occurrence of `old`, scanning left to right without rescanning the
replacement (wiretray.py:96,173). -/
def pyReplace (old new t : Str) : Str := pyReplaceAux old new 0 t

/-- `s` occurs as a contiguous substring of `t`. -/
def containsSub (s : Str) : Str → Bool
  | [] => s.isEmpty
  | c :: rest => s.isPrefixOf (c :: rest) || containsSub s rest

/-- `s` cannot overlap a copy of itself: no proper period, i.e. no
non-trivial way for a copy of `s` to start strictly inside `s`. -/
def selfOverlapFree (s : Str) : Bool :=
  (List.range s.length).all fun k =>
    k == 0 || s.drop k != s.take (s.length - k)

/-- Ascending lexicographic (code-point) order on strings, as Python's
`list.sort` uses for `self.configs.sort()` (wiretray.py:99). -/
def strLe : Str → Str → Bool
  | [], _ => true
  | _ :: _, [] => false
  | a :: as, b :: bs => if a < b then true else if a = b then strLe as bs else false

/-- Propositional form of `strLe`, for `List.insertionSort`. -/
def strLeP (a b : Str) : Prop := strLe a b = true

instance : DecidableRel strLeP := fun a b => by
  unfold strLeP; infer_instance

/-- The state of the configuration directory `/etc/wireguard` as
`scan_configs` observes it: absent, unreadable, or a listing. -/
inductive DirState where
  | missing : DirState
  | denied : DirState
  | present : List Str → DirState

/-- A row of the Qt list widget: its display text and the hidden
`UserRole` data (`none` for error rows, which never get `setData`). -/
structure ListItem where
  text : Str
  dat : Option Str
deriving DecidableEq

/-- The row shown when `/etc/wireguard` does not exist (wiretray.py:89). -/
def errMissingItem : ListItem := ⟨"Error: /etc/wireguard not found".toList, none⟩

/-- The row shown on `PermissionError` (wiretray.py:111). -/
def permDeniedItem : ListItem := ⟨"Permission Denied: /etc/wireguard".toList, none⟩

/-- The remediation-hint row shown on `PermissionError` (wiretray.py:112). -/
def permHintItem : ListItem := ⟨"Run: sudo chmod o+rx /etc/wireguard".toList, none⟩

/-- What `scan_configs` leaves behind: `self.configs` and the list-widget
rows. -/
structure ScanResult where
  configs : List Str
  items : List ListItem
deriving DecidableEq

/-- `MainWindow.scan_configs` (wiretray.py:80-112): reset the list, bail
out with an inline error row when the directory is missing or unreadable;
otherwise keep the filenames ending in `".conf"`, map each through
`f.replace(".conf", "")`, sort ascending, and build one row per config
with the clean name stored as its `UserRole` data. -/
def scan_configs : DirState → ScanResult
  | DirState.missing => ⟨[], [errMissingItem]⟩
  | DirState.denied => ⟨[], [permDeniedItem, permHintItem]⟩
  | DirState.present files =>
    let matched := files.filter fun f => pyEndsWith f confSuffix
    let raw := matched.map fun f => pyReplace confSuffix [] f
    let sorted := List.insertionSort strLeP raw
    ⟨sorted, sorted.map fun c => ⟨c, some c⟩⟩

/-- The kernel path `/sys/class/net/<interface>` (wiretray.py:136). -/
def netPath (interface : Str) : Str := "/sys/class/net/".toList ++ interface

/-- `MainWindow.is_interface_active` (wiretray.py:135-136): existence of
`/sys/class/net/<interface>` in the filesystem `fs`. -/
def is_interface_active (fs : Str → Bool) (interface : Str) : Bool :=
  fs (netPath interface)

/-- Step 1 of `update_status` for one list-widget row
(wiretray.py:143-163): rows whose `UserRole` data is `None` or `""` are
skipped (`if not name: continue`); otherwise the text becomes
`"<name> (Active)"` or `"<name>"` from the current interface state. -/
def updateItem (fs : Str → Bool) (item : ListItem) : ListItem :=
  match item.dat with
  | none => item
  | some name =>
    if name = [] then item
    else if is_interface_active fs name then ⟨name ++ activeMark, item.dat⟩
    else ⟨name, item.dat⟩

/-- Step 1 of `update_status` over the whole list widget. -/
def update_status_items (fs : Str → Bool) (items : List ListItem) : List ListItem :=
  items.map (updateItem fs)

/-- Step 2 of `update_status` for one tray action (wiretray.py:165-180):
strip `"  [Active]"` from the current label to recover the name; when the
result is a known config, relabel from the current interface state,
otherwise leave the label alone. -/
def relabel_action (configs : List Str) (fs : Str → Bool) (text : Str) : Str :=
  let clean := pyReplace activeTag [] text
  if clean ∈ configs then
    if is_interface_active fs clean then clean ++ activeTag else clean
  else text

/-- Outcome of one `subprocess.run` call (wiretray.py:231). -/
structure SubprocResult where
  returncode : Int
  stderr : Str
deriving DecidableEq

/-- Whether the subprocess call completed or raised (wiretray.py:240). -/
inductive SubprocBehavior where
  | completes : SubprocResult → SubprocBehavior
  | raises : Str → SubprocBehavior

/-- The user-visible outcome of `toggle_vpn`: silence, or a critical
message box with a title and a message. -/
inductive ToggleOutcome where
  | ok : ToggleOutcome
  | errorBox : Str → Str → ToggleOutcome
deriving DecidableEq

def errTitle : Str := "Error".toList

/-- The message shown on a non-zero exit code (wiretray.py:235):
`f"Failed to toggle {interface}:\n{result.stderr}"`. -/
def failMsg (interface stderr : Str) : Str :=
  "Failed to toggle ".toList ++ interface ++ ":\n".toList ++ stderr

def cmdSudo : Str := "sudo".toList
def cmdWgQuick : Str := "wg-quick".toList
def cmdUp : Str := "up".toList
def cmdDown : Str := "down".toList

/-- The `cmd_list` built by `toggle_vpn` (wiretray.py:222-226):
`["sudo", "wg-quick", "down" | "up", interface]` from the current
interface state. -/
def toggle_cmd_list (fs : Str → Bool) (interface : Str) : List Str :=
  [cmdSudo, cmdWgQuick,
   if is_interface_active fs interface then cmdDown else cmdUp,
   interface]

/-- The mutable state of `MainWindow` that `toggle_vpn` can reach:
`self.configs` and the list-widget rows. -/
structure AppState where
  configs : List Str
  items : List ListItem
deriving DecidableEq

/-- `MainWindow.toggle_vpn` after the subprocess call
(wiretray.py:228-243): an exception shows its text in a message box; a
non-zero exit code shows `failMsg`; a zero exit code runs
`update_status` (its list-widget step) immediately.  `self.configs` is
never touched. -/
def toggle_vpn (fs : Str → Bool) (beh : SubprocBehavior) (interface : Str)
    (st : AppState) : AppState × ToggleOutcome :=
  match beh with
  | SubprocBehavior.raises msg => (st, ToggleOutcome.errorBox errTitle msg)
  | SubprocBehavior.completes r =>
    if r.returncode ≠ 0 then
      (st, ToggleOutcome.errorBox errTitle (failMsg interface r.stderr))
    else
      (AppState.mk st.configs (update_status_items fs st.items), ToggleOutcome.ok)

/-- Modelled from the spec: "stripping a `.conf` suffix from a filename"
— the filename with only the trailing `".conf"` removed, the rest
unchanged. -/
def specStripConf (f : Str) : Str := f.take (f.length - confSuffix.length)

/-! ### Helper lemmas -/

theorem isPrefixOf_iff_exists : ∀ (p l : Str), p.isPrefixOf l = true ↔ ∃ u, l = p ++ u
  | [], l => by simp [List.isPrefixOf]
  | a :: as, [] => by simp [List.isPrefixOf]
  | a :: as, b :: bs => by
    simp only [List.isPrefixOf, Bool.and_eq_true, beq_iff_eq]
    constructor
    · rintro ⟨rfl, h⟩
      obtain ⟨u, rfl⟩ := (isPrefixOf_iff_exists as bs).mp h
      exact ⟨u, rfl⟩
    · rintro ⟨u, hu⟩
      injection hu with h1 h2
      subst h1
      exact ⟨rfl, (isPrefixOf_iff_exists as bs).mpr ⟨u, h2⟩⟩

theorem isSuffixOf_iff_exists (p l : Str) : p.isSuffixOf l = true ↔ ∃ u, l = u ++ p := by
  unfold List.isSuffixOf
  rw [isPrefixOf_iff_exists]
  constructor
  · rintro ⟨u, hu⟩
    refine ⟨u.reverse, ?_⟩
    have h2 := congrArg List.reverse hu
    simpa using h2
  · rintro ⟨u, rfl⟩
    exact ⟨u.reverse, by simp⟩

theorem pyEndsWith_iff (t s : Str) : pyEndsWith t s = true ↔ ∃ u, t = u ++ s := by
  unfold pyEndsWith
  exact isSuffixOf_iff_exists s t

theorem pyReplaceAux_skip (old new : Str) :
    ∀ (t : Str) (k : Nat), pyReplaceAux old new k t = pyReplaceAux old new 0 (t.drop k)
  | [], k => by cases k <;> simp [pyReplaceAux]
  | c :: rest, 0 => by simp
  | c :: rest, Nat.succ k => by
    simp only [pyReplaceAux, List.drop_succ_cons]
    exact pyReplaceAux_skip old new rest k

theorem pyReplace_cons_pos (old new : Str) (c : Char) (rest : Str)
    (h1 : old ≠ []) (h2 : old.isPrefixOf (c :: rest) = true) :
    pyReplace old new (c :: rest)
      = new ++ pyReplace old new (rest.drop (old.length - 1)) := by
  unfold pyReplace
  simp only [pyReplaceAux]
  rw [if_pos ⟨h2, h1⟩]
  rw [pyReplaceAux_skip]

theorem pyReplace_cons_neg (old new : Str) (c : Char) (rest : Str)
    (h : old.isPrefixOf (c :: rest) = false) :
    pyReplace old new (c :: rest) = c :: pyReplace old new rest := by
  unfold pyReplace
  simp only [pyReplaceAux]
  rw [if_neg]
  rintro ⟨h2, -⟩
  rw [h] at h2
  exact Bool.false_ne_true h2

theorem pyReplace_of_not_contains (old new : Str) :
    ∀ (t : Str), containsSub old t = false → pyReplace old new t = t
  | [], _ => rfl
  | c :: rest, h => by
    have h' := h
    simp only [containsSub, Bool.or_eq_false_iff] at h'
    rw [pyReplace_cons_neg old new c rest h'.1,
        pyReplace_of_not_contains old new rest h'.2]

theorem pyReplace_self (old : Str) (hne : old ≠ []) : pyReplace old [] old = [] := by
  obtain ⟨a, as, rfl⟩ : ∃ a as, old = a :: as := by
    cases old with
    | nil => exact absurd rfl hne
    | cons a as => exact ⟨a, as, rfl⟩
  rw [pyReplace_cons_pos _ _ _ _ hne ((isPrefixOf_iff_exists _ _).mpr ⟨[], by simp⟩)]
  simp only [List.length_cons, Nat.add_sub_cancel]
  rw [List.drop_length]
  rfl

theorem selfOverlapFree_spec (s : Str) (h : selfOverlapFree s = true) :
    ∀ k, 0 < k → k < s.length → s.drop k ≠ s.take (s.length - k) := by
  intro k hk0 hklt
  unfold selfOverlapFree at h
  rw [List.all_eq_true] at h
  have h2 := h k (List.mem_range.mpr hklt)
  rcases Bool.or_eq_true_iff.mp h2 with h3 | h3
  · exact absurd (beq_iff_eq.mp h3) (Nat.pos_iff_ne_zero.mp hk0)
  · exact bne_iff_ne.mp h3

theorem no_boundary_overlap (old : Str) (_hne : old ≠ [])
    (hover : selfOverlapFree old = true) (c : Char) (t : Str)
    (hocc : containsSub old (c :: t) = false) :
    old.isPrefixOf ((c :: t) ++ old) = false := by
  by_contra hcon
  rw [Bool.not_eq_false] at hcon
  obtain ⟨u, hu⟩ := (isPrefixOf_iff_exists _ _).mp hcon
  by_cases hlen : old.length ≤ (c :: t).length
  · have htake : ((c :: t) ++ old).take old.length = (c :: t).take old.length := by
      rw [List.take_append_eq_append_take, Nat.sub_eq_zero_of_le hlen,
        List.take_zero, List.append_nil]
    have hold : old = (c :: t).take old.length := by
      have h5 : (old ++ u).take old.length = old := List.take_left old u
      rw [← hu, htake] at h5
      exact h5.symm
    have hpre : old.isPrefixOf (c :: t) = true := by
      refine (isPrefixOf_iff_exists _ _).mpr ⟨(c :: t).drop old.length, ?_⟩
      conv_lhs => rw [← List.take_append_drop old.length (c :: t)]
      rw [← hold]
    have h6 : containsSub old (c :: t) = true := by
      simp [containsSub, hpre]
    rw [h6] at hocc
    exact Bool.noConfusion hocc
  · push_neg at hlen
    have hk0 : 0 < (c :: t).length := by simp
    have h1 : (c :: t) = old.take (c :: t).length := by
      have e1 : ((c :: t) ++ old).take (c :: t).length = c :: t := List.take_left (c :: t) old
      rw [hu, List.take_append_eq_append_take,
        Nat.sub_eq_zero_of_le (le_of_lt hlen), List.take_zero, List.append_nil] at e1
      exact e1.symm
    have h2 : old = (c :: t) ++ old.drop (c :: t).length := by
      conv_lhs => rw [← List.take_append_drop (c :: t).length old]
      rw [← h1]
    have h3 : old.drop (c :: t).length ++ u = old := by
      have e2 : (c :: t) ++ old = (c :: t) ++ (old.drop (c :: t).length ++ u) := by
        rw [hu]
        conv_lhs => rw [h2]
        rw [List.append_assoc]
      exact (List.append_cancel_left e2).symm
    have h4 : old.take (old.length - (c :: t).length) = old.drop (c :: t).length := by
      calc old.take (old.length - (c :: t).length)
          = (old.drop (c :: t).length ++ u).take ((old.drop (c :: t).length).length) := by
            rw [h3, List.length_drop]
        _ = old.drop (c :: t).length := List.take_left _ _
    exact selfOverlapFree_spec old hover (c :: t).length hk0 hlen h4.symm

theorem pyReplace_append (old : Str) (hne : old ≠ [])
    (hover : selfOverlapFree old = true) :
    ∀ (t : Str), containsSub old t = false → pyReplace old [] (t ++ old) = t
  | [], _ => by rw [List.nil_append]; exact pyReplace_self old hne
  | c :: rest, hocc => by
    have hocc' := hocc
    simp only [containsSub, Bool.or_eq_false_iff] at hocc'
    have hnp : old.isPrefixOf ((c :: rest) ++ old) = false :=
      no_boundary_overlap old hne hover c rest hocc
    rw [List.cons_append]
    rw [pyReplace_cons_neg old [] c (rest ++ old) (by rw [← List.cons_append]; exact hnp)]
    rw [pyReplace_append old hne hover rest hocc'.2]

theorem strLe_total : ∀ (a b : Str), strLe a b = true ∨ strLe b a = true
  | [], _ => Or.inl rfl
  | _ :: _, [] => Or.inr rfl
  | a :: as, b :: bs => by
    simp only [strLe]
    rcases lt_trichotomy a b with h | h | h
    · left; simp [h]
    · subst h
      simp only [lt_irrefl, if_false, if_pos rfl]
      simpa using strLe_total as bs
    · right; simp [h]

theorem strLe_trans : ∀ (a b c : Str), strLe a b = true → strLe b c = true → strLe a c = true
  | [], _, _, _, _ => rfl
  | _ :: _, [], _, h, _ => by simp [strLe] at h
  | _ :: _, _ :: _, [], _, h => by simp [strLe] at h
  | a :: as, b :: bs, c :: cs, hab, hbc => by
    simp only [strLe] at hab hbc ⊢
    by_cases h1 : a < b
    · by_cases h2 : b < c
      · simp [lt_trans h1 h2]
      · by_cases h3 : b = c
        · simp [h3 ▸ h1]
        · simp [h2, h3] at hbc
    · by_cases h4 : a = b
      · subst h4
        by_cases h2 : a < c
        · simp [h2]
        · by_cases h3 : a = c
          · subst h3
            simp only [lt_irrefl, if_false, if_pos rfl] at hab hbc ⊢
            exact strLe_trans as bs cs hab hbc
          · simp [h2, h3] at hbc
      · simp [h1, h4] at hab

instance : IsTotal Str strLeP := ⟨strLe_total⟩

instance : IsTrans Str strLeP := ⟨strLe_trans⟩

theorem specStripConf_append (g : Str) : specStripConf (g ++ confSuffix) = g := by
  unfold specStripConf
  rw [List.length_append, Nat.add_sub_cancel, List.take_left]

/-- A filename in which `".conf"` occurs only as the trailing suffix is
mapped by `f.replace(".conf", "")` to exactly the filename with that
suffix stripped. -/
theorem pyReplace_strip (f : Str) (hend : pyEndsWith f confSuffix = true)
    (hocc : containsSub confSuffix (specStripConf f) = false) :
    pyReplace confSuffix [] f = specStripConf f := by
  obtain ⟨g, rfl⟩ := (pyEndsWith_iff f confSuffix).mp hend
  rw [specStripConf_append] at hocc ⊢
  exact pyReplace_append confSuffix (by decide) (by decide) g hocc

/-! ### Claims -/

/-- C1 (counterexample): the filename `"a.conf.conf"` ends with `".conf"`,
yet `scan_configs` produces the tunnel name `"a"`, not `"a.conf"` — the
filename with only the trailing suffix stripped — because
`f.replace(".conf", "")` removes every occurrence of `".conf"`. -/
theorem c1_strip_cex :
    pyEndsWith ("a.conf.conf".toList) confSuffix = true ∧
    (scan_configs (DirState.present [("a.conf.conf".toList)])).configs
      = [("a".toList)] ∧
    specStripConf ("a.conf.conf".toList) = "a.conf".toList ∧
    ("a".toList) ≠ "a.conf".toList := by decide

/-- C1 (amended): for every filename ending with `".conf"` in which
`".conf"` occurs only as the trailing suffix, the tunnel name produced by
`scan_configs`'s per-file transformation `f.replace(".conf", "")` equals
the filename with the trailing `".conf"` stripped and the rest unchanged;
in general the code removes every occurrence of `".conf"`, not only the
trailing one. -/
theorem c1_strip_only_suffix (f : Str) (hend : pyEndsWith f confSuffix = true)
    (hocc : containsSub confSuffix (specStripConf f) = false) :
    pyReplace confSuffix [] f = specStripConf f :=
  pyReplace_strip f hend hocc

/-- C1 witness: the hypotheses hold at the filename `"wg0.conf"` and the
tunnel name is `"wg0"`. -/
theorem c1_strip_only_suffix_witness :
    pyReplace confSuffix [] ("wg0.conf".toList) = specStripConf ("wg0.conf".toList) :=
  c1_strip_only_suffix ("wg0.conf".toList) (by decide) (by decide)

/-- C2: the `cmd_list` spawned by `toggle_vpn` carries the argument
`"down"` followed by the interface name when the interface is active, and
`"up"` followed by the interface name when it is not. -/
theorem c2_toggle_cmd (fs : Str → Bool) (i : Str) :
    (is_interface_active fs i = true →
      toggle_cmd_list fs i = [cmdSudo, cmdWgQuick, cmdDown, i]) ∧
    (is_interface_active fs i = false →
      toggle_cmd_list fs i = [cmdSudo, cmdWgQuick, cmdUp, i]) := by
  constructor <;> intro h <;> simp [toggle_cmd_list, h]

/-- C3 (counterexample): with interface `"wg0"`, exit code 1 and stderr
`"boom"`, the message box text is `failMsg "wg0" "boom"` =
`"Failed to toggle wg0:\nboom"`, which is not the stderr text unchanged. -/
theorem c3_error_text_cex :
    (toggle_vpn (fun _ => true)
        (SubprocBehavior.completes ⟨1, ("boom".toList)⟩)
        ("wg0".toList) (AppState.mk [] [])).2
      = ToggleOutcome.errorBox errTitle (failMsg ("wg0".toList) ("boom".toList)) ∧
    failMsg ("wg0".toList) ("boom".toList) ≠ "boom".toList := by decide

/-- C3 (amended): a zero exit code produces no user-visible error, and a
non-zero exit code shows a message box whose text is the fixed prefix
`"Failed to toggle <interface>:\n"` followed by the captured stderr text
verbatim (the stderr appears unchanged as a suffix of the message, not as
the whole message). -/
theorem c3_error_reporting (fs : Str → Bool) (i : Str) (r : SubprocResult)
    (st : AppState) :
    (r.returncode = 0 →
      (toggle_vpn fs (SubprocBehavior.completes r) i st).2 = ToggleOutcome.ok) ∧
    (r.returncode ≠ 0 →
      (toggle_vpn fs (SubprocBehavior.completes r) i st).2
        = ToggleOutcome.errorBox errTitle (failMsg i r.stderr) ∧
      failMsg i r.stderr
        = ("Failed to toggle ".toList ++ i ++ ":\n".toList) ++ r.stderr) := by
  constructor
  · intro h
    simp [toggle_vpn, h]
  · intro h
    refine ⟨by simp [toggle_vpn, h], ?_⟩
    unfold failMsg
    simp [List.append_assoc]

/-- C4: scanning a listing yields exactly as many tunnel names as there
are filenames ending with `".conf"`, and the resulting list is sorted in
ascending lexicographic order. -/
theorem c4_scan_count_sorted (files : List Str) :
    (scan_configs (DirState.present files)).configs.length
      = (files.filter fun f => pyEndsWith f confSuffix).length ∧
    List.Sorted strLeP (scan_configs (DirState.present files)).configs := by
  constructor
  · show (List.insertionSort strLeP _).length = _
    rw [(List.perm_insertionSort strLeP _).length_eq, List.length_map]
  · exact List.sorted_insertionSort strLeP _

/-- C5: the derived status of a tunnel is active exactly when
`/sys/class/net/<name>` exists in the current filesystem, and
`update_status` recomputes a config row's text from that filesystem check
alone — the previous row text is never consulted. -/
theorem c5_status_from_sysfs (fs : Str → Bool) (name : Str) (item : ListItem)
    (hdat : item.dat = some name) (hne : name ≠ []) :
    (is_interface_active fs name = true ↔ fs (netPath name) = true) ∧
    updateItem fs item
      = ListItem.mk (if fs (netPath name) then name ++ activeMark else name)
          item.dat := by
  refine ⟨Iff.rfl, ?_⟩
  obtain ⟨tx, d⟩ := item
  simp only at hdat
  subst hdat
  simp only [updateItem, is_interface_active, if_neg hne]
  cases h : fs (netPath name) <;> simp [h]

/-- C5 witness: with a filesystem in which every path exists, the row for
`"wg0"` is relabeled `"wg0 (Active)"`. -/
theorem c5_status_from_sysfs_witness :
    (is_interface_active (fun _ => true) ("wg0".toList) = true ↔
      (fun _ : Str => true) (netPath ("wg0".toList)) = true) ∧
    updateItem (fun _ => true) (ListItem.mk ("wg0".toList) (some ("wg0".toList)))
      = ListItem.mk
          (if (fun _ : Str => true) (netPath ("wg0".toList))
            then "wg0".toList ++ activeMark else "wg0".toList)
          (ListItem.mk ("wg0".toList) (some ("wg0".toList))).dat :=
  c5_status_from_sysfs (fun _ => true) ("wg0".toList)
    (ListItem.mk ("wg0".toList) (some ("wg0".toList))) rfl (by decide)

/-- C6: a missing directory leaves the config list empty and reports the
error inline as a list row; a permission denial leaves the config list
empty and reports it inline together with the `sudo chmod` remediation
hint; neither case raises. -/
theorem c6_scan_error_rows :
    (scan_configs DirState.missing).configs = [] ∧
    (scan_configs DirState.missing).items = [errMissingItem] ∧
    (scan_configs DirState.denied).configs = [] ∧
    (scan_configs DirState.denied).items = [permDeniedItem, permHintItem] :=
  ⟨rfl, rfl, rfl, rfl⟩

/-- C7 (counterexample): the listing `["a.conf", "a.conf.conf"]` has
pairwise-distinct filenames, yet `scan_configs` produces the duplicate
names `["a", "a"]`, because `f.replace(".conf", "")` maps both filenames
to `"a"`. -/
theorem c7_nodup_cex :
    (["a.conf".toList, "a.conf.conf".toList] : List Str).Nodup ∧
    ¬ (scan_configs
        (DirState.present ["a.conf".toList, "a.conf.conf".toList])).configs.Nodup := by
  decide

/-- C7 (amended): for every listing of pairwise-distinct filenames in
which each `".conf"`-suffixed filename contains `".conf"` only as its
trailing suffix, the tunnel names produced by `scan_configs` are pairwise
distinct; without that restriction distinct filenames can collapse to one
name. -/
theorem c7_scan_nodup (files : List Str) (hnd : files.Nodup)
    (h : ∀ f ∈ files, pyEndsWith f confSuffix = true →
      containsSub confSuffix (specStripConf f) = false) :
    (scan_configs (DirState.present files)).configs.Nodup := by
  show (List.insertionSort strLeP
    ((files.filter fun f => pyEndsWith f confSuffix).map
      fun f => pyReplace confSuffix [] f)).Nodup
  rw [(List.perm_insertionSort strLeP _).nodup_iff]
  refine List.Nodup.map_on ?_ (hnd.filter _)
  intro x hx y hy hxy
  have hx' := List.mem_filter.mp hx
  have hy' := List.mem_filter.mp hy
  have ex := pyReplace_strip x hx'.2 (h x hx'.1 hx'.2)
  have ey := pyReplace_strip y hy'.2 (h y hy'.1 hy'.2)
  rw [ex, ey] at hxy
  obtain ⟨gx, rfl⟩ := (pyEndsWith_iff x confSuffix).mp hx'.2
  obtain ⟨gy, rfl⟩ := (pyEndsWith_iff y confSuffix).mp hy'.2
  rw [specStripConf_append, specStripConf_append] at hxy
  rw [hxy]

/-- C7 witness: the listing `["a.conf", "b.conf"]` satisfies the
hypotheses and yields pairwise-distinct names. -/
theorem c7_scan_nodup_witness :
    (scan_configs (DirState.present ["a.conf".toList, "b.conf".toList])).configs.Nodup :=
  c7_scan_nodup ["a.conf".toList, "b.conf".toList] (by decide) (by decide)

/-- C8: a file named exactly `".conf"` makes `scan_configs` record the
empty string as a tunnel name and build a row whose `UserRole` data is
the empty string, and `update_status` then skips that row
(`if not name: continue`), leaving it unchanged with no status text. -/
theorem c8_bare_conf_entry (fs : Str → Bool) :
    (scan_configs (DirState.present [confSuffix])).configs = [[]] ∧
    (scan_configs (DirState.present [confSuffix])).items
      = [ListItem.mk [] (some [])] ∧
    updateItem fs (ListItem.mk [] (some [])) = ListItem.mk [] (some []) :=
  ⟨by decide, by decide, rfl⟩

/-- C9: for a config name free of the substring `"  [Active]"`, the tray
relabeling step of `update_status` is idempotent under an unchanged
interface state: relabeling an already-relabeled label gives the same
label, since stripping `"  [Active]"` recovers the original name. -/
theorem c9_relabel_idempotent (configs : List Str) (fs : Str → Bool) (c : Str)
    (hc : c ∈ configs) (hocc : containsSub activeTag c = false) :
    relabel_action configs fs (relabel_action configs fs c)
      = relabel_action configs fs c := by
  have hclean : pyReplace activeTag [] c = c :=
    pyReplace_of_not_contains activeTag [] c hocc
  have hfirst : relabel_action configs fs c
      = if is_interface_active fs c then c ++ activeTag else c := by
    unfold relabel_action
    rw [hclean, if_pos hc]
  rw [hfirst]
  by_cases hact : is_interface_active fs c = true
  · rw [if_pos hact]
    have hclean2 : pyReplace activeTag [] (c ++ activeTag) = c :=
      pyReplace_append activeTag (by decide) (by decide) c hocc
    unfold relabel_action
    rw [hclean2, if_pos hc, if_pos hact]
  · rw [if_neg hact, hfirst, if_neg hact]

/-- C9 witness: with configs `["wg0"]`, an all-present filesystem and the
label `"wg0"`, relabeling twice equals relabeling once. -/
theorem c9_relabel_idempotent_witness :
    relabel_action [("wg0".toList)] (fun _ => true)
        (relabel_action [("wg0".toList)] (fun _ => true) ("wg0".toList))
      = relabel_action [("wg0".toList)] (fun _ => true) ("wg0".toList) :=
  c9_relabel_idempotent [("wg0".toList)] (fun _ => true) ("wg0".toList)
    (by decide) (by decide)

/-- C10: `toggle_vpn` leaves `self.configs` unchanged whether the
subprocess succeeds, exits non-zero, or raises. -/
theorem c10_toggle_preserves_configs (fs : Str → Bool) (beh : SubprocBehavior)
    (i : Str) (st : AppState) :
    (toggle_vpn fs beh i st).1.configs = st.configs := by
  cases beh with
  | raises msg => rfl
  | completes r =>
    by_cases h : r.returncode ≠ 0 <;> simp [toggle_vpn, h]

end Wiretray
